import Mathlib

/-!
Verification of the kangaroo-chess session server (`src/server.js`).

The server keeps a process-wide map `gameRooms : roomId → game`, where a game
holds an 8×8 board of single-letter piece codes (uppercase = white), the color
to move (`currentPlayer`), the two player seats, a spectator list, a move
history, and terminal flags.  Socket handlers (`create-room`, `make-move`,
`game-over`, `request-rematch`, `accept-rematch`, `disconnect`) mutate this
state and emit events either to the requesting connection, to the whole room,
or to the other room members.

The definitions below are a shallow embedding of those handlers: each handler
becomes a pure function from the relevant state (and the external inputs the
handler reads, such as the random draw behind `generateRoomId` or the clock
behind `Date.now()`) to the next state together with the list of emissions.
Board writes use `List.set`; this matches JavaScript array assignment exactly
for indices in the 0–7 range, which is why the theorems about board contents
carry explicit range hypotheses.
-/

set_option linter.unusedVariables false

namespace KangarooChess

/-- Piece color.  The source encodes colors as the strings
`'white'` / `'black'` in `game.currentPlayer` and in the `players` keys. -/
inductive Color where
  | white
  | black
deriving DecidableEq, Repr

/-- `game.currentPlayer = game.currentPlayer === 'white' ? 'black' : 'white'`
(server.js line 164). -/
def Color.other : Color → Color
  | .white => .black
  | .black => .white

/-- The role stored on the connection object as `socket.playerColor`:
`'white'`, `'black'`, or `'spectator'`. -/
inductive Role where
  | white
  | black
  | spectator
deriving DecidableEq, Repr

/-- The string comparison `game.currentPlayer !== socket.playerColor`
(server.js line 136), as a positive match: `true` iff the strings agree. -/
def roleMatchesTurn : Color → Role → Bool
  | .white, .white => true
  | .black, .black => true
  | _, _ => false

/-- A board cell: `null` or a one-letter piece code such as `'P'`, `'q'`. -/
abbrev Cell := Option Char

/-- The board, `game.board`: an array of rows, each an array of cells. -/
abbrev Board := List (List Cell)

/-- `initialBoard` (server.js lines 22-31). -/
def initialBoard : Board :=
  [ [some 'r', some 'n', some 'b', some 'q', some 'k', some 'b', some 'n', some 'r'],
    [some 'p', some 'p', some 'p', some 'p', some 'p', some 'p', some 'p', some 'p'],
    [none, none, none, none, none, none, none, none],
    [none, none, none, none, none, none, none, none],
    [none, none, none, none, none, none, none, none],
    [none, none, none, none, none, none, none, none],
    [some 'P', some 'P', some 'P', some 'P', some 'P', some 'P', some 'P', some 'P'],
    [some 'R', some 'N', some 'B', some 'Q', some 'K', some 'B', some 'N', some 'R'] ]

/-- Read `board[r][c]`: `none` when the index is out of range, `some cell`
otherwise (`cell` itself being `none` for an empty square). -/
def cellAt (b : Board) (r c : Nat) : Option Cell :=
  (b.get? r).bind fun row => row.get? c

/-- Write `board[r][c] = v`.  Identical to the JavaScript assignment for
`r, c` in the 0–7 range on a well-formed 8×8 board. -/
def boardSet (b : Board) (r c : Nat) (v : Cell) : Board :=
  b.set r (((b.get? r).getD []).set c v)

/-- The board is an 8×8 grid. -/
def boardWF (b : Board) : Bool :=
  b.length == 8 && b.all fun row => row.length == 8

/-- An occupant record `{ id, name, connected }`. -/
structure PlayerInfo where
  id : String
  name : String
  connected : Bool
deriving DecidableEq, Repr

/-- `game.players`, an object with optional `white` and `black` fields. -/
structure Players where
  white : Option PlayerInfo
  black : Option PlayerInfo
deriving DecidableEq, Repr

/-- A square reference `{ row, col }` as used in `moveData.from` / `moveData.to`. -/
structure Coord where
  row : Nat
  col : Nat
deriving DecidableEq, Repr

/-- `moveData.type`: `'move'` or `'swap'`. -/
inductive MoveType where
  | move
  | swap
deriving DecidableEq, Repr

/-- The `make-move` payload `moveData { type, from, to, piece }`. -/
structure MoveData where
  type : MoveType
  «from» : Coord
  «to» : Coord
  piece : Char
deriving DecidableEq, Repr

/-- A `game.moveHistory` entry: `{ ...moveData, timestamp, player }`
(server.js lines 157-161). -/
structure HistEntry where
  data : MoveData
  timestamp : Nat
  player : Role
deriving DecidableEq, Repr

/-- Who an emission is delivered to: `socket.emit` (the requester only),
`io.to(roomId).emit` (the whole room), or `socket.to(roomId).emit`
(the other room members). -/
inductive Target where
  | requester
  | room
  | others
deriving DecidableEq, Repr

/-- One emitted event: target, event name, and the message string for
`error` events. -/
structure Emission where
  target : Target
  event : String
  msg : Option String
deriving DecidableEq, Repr

/-- One game session, as built by `createNewGame` (server.js lines 37-48). -/
structure Game where
  id : String
  board : Board
  currentPlayer : Color
  players : Players
  spectators : List PlayerInfo
  gameOver : Bool
  result : Option String
  moveHistory : List HistEntry
  createdAt : Nat
deriving DecidableEq, Repr

/-- `createNewGame(roomId)` (server.js lines 37-48); `now` stands for the
`Date.now()` read. -/
def createNewGame (roomId : String) (now : Nat) : Game :=
  { id := roomId
    board := initialBoard
    currentPlayer := Color.white
    players := { white := none, black := none }
    spectators := []
    gameOver := false
    result := none
    moveHistory := []
    createdAt := now }

/-- `generateRoomId()` (server.js lines 33-35): the argument is the decimal
string produced by `Math.random().toString(36)`; the function keeps
characters 2–7 and uppercases them.  It never consults the room registry. -/
def generateRoomId (randStr : String) : String :=
  String.mk (((randStr.data.drop 2).take 6).map Char.toUpper)

/-- The board mutation performed by the `make-move` handler
(server.js lines 142-154): a `move` places `moveData.piece` at `to`, clears
`from`, and then overwrites `to` with a queen when the declared piece is a
pawn landing on row 0 or row 7; a `swap` exchanges the two cells. -/
def applyBoard (b : Board) (md : MoveData) : Board :=
  match md.type with
  | .move =>
    let b1 := boardSet b md.to.row md.to.col (some md.piece)
    let b2 := boardSet b1 md.«from».row md.«from».col none
    if md.piece.toLower = 'p' && (md.to.row == 0 || md.to.row == 7) then
      boardSet b2 md.to.row md.to.col (some (if md.piece = 'P' then 'Q' else 'q'))
    else
      b2
  | .swap =>
    let temp := (cellAt b md.«from».row md.«from».col).getD none
    let b1 := boardSet b md.«from».row md.«from».col
      ((cellAt b md.to.row md.to.col).getD none)
    boardSet b1 md.to.row md.to.col temp

/-- The `error('Not your turn')` emission (server.js line 137). -/
def notYourTurn : Emission :=
  { target := Target.requester, event := "error", msg := some "Not your turn" }

/-- The `make-move` handler on a present game (server.js lines 131-173):
spectators are silently dropped, a turn mismatch gets an `error` to the
requester only, and otherwise the action is applied — the board is mutated,
a history entry is appended, the turn flips, and `move-made` goes to the
whole room.  No other check is performed: `gameOver`, coordinate validity,
source-cell emptiness and piece ownership are never consulted. -/
def makeMoveGame (g : Game) (playerColor : Role) (moveData : MoveData) (now : Nat) :
    Game × List Emission :=
  if playerColor = Role.spectator then
    (g, [])
  else if roleMatchesTurn g.currentPlayer playerColor = false then
    (g, [notYourTurn])
  else
    ({ g with
        board := applyBoard g.board moveData
        moveHistory := g.moveHistory ++
          [{ data := moveData, timestamp := now, player := playerColor }]
        currentPlayer := g.currentPlayer.other },
     [{ target := Target.room, event := "move-made", msg := none }])

/-- The full `make-move` handler including the `if (!game) return` guard
(server.js lines 132-133). -/
def makeMove (g : Option Game) (playerColor : Role) (moveData : MoveData) (now : Nat) :
    Option Game × List Emission :=
  match g with
  | none => (none, [])
  | some g =>
    let r := makeMoveGame g playerColor moveData now
    (some r.1, r.2)

/-- The `game-over` handler on a present game (server.js lines 175-184). -/
def gameOverGame (g : Game) (result : String) : Game × List Emission :=
  ({ g with gameOver := true, result := some result },
   [{ target := Target.room, event := "game-ended", msg := none }])

/-- The `request-rematch` handler on a present game (server.js lines 202-209):
spectators are silently dropped, players trigger `rematch-requested` to the
other room members; the game state is never touched. -/
def requestRematchGame (g : Game) (role : Role) : Game × List Emission :=
  if role = Role.spectator then
    (g, [])
  else
    (g, [{ target := Target.others, event := "rematch-requested", msg := none }])

/-- The `accept-rematch` handler on a present game (server.js lines 211-224).
The connection's role is passed in because the handler runs on behalf of a
connection, but — matching the source — it is never read: any room member
triggers the reset.  Board, turn, `gameOver`, history and `result` are reset;
players and spectators are untouched. -/
def acceptRematchGame (g : Game) (role : Role) : Game × List Emission :=
  ({ g with
      board := initialBoard
      currentPlayer := Color.white
      gameOver := false
      moveHistory := []
      result := none },
   [{ target := Target.room, event := "game-reset", msg := none }])

/-- `game.players.white?.id === socket.id`: `false` when the seat is empty. -/
def playerIdMatches (p : Option PlayerInfo) (sid : String) : Bool :=
  match p with
  | some q => q.id = sid
  | none => false

/-- `!game.players.white?.connected` without the negation: `false` when the
seat is empty (matching `undefined` being falsy). -/
def optConnected (p : Option PlayerInfo) : Bool :=
  match p with
  | some q => q.connected
  | none => false

/-- The cleanup delay `5 * 60 * 1000` milliseconds (server.js line 255). -/
def cleanupDelayMs : Nat := 5 * 60 * 1000

/-- The `disconnect` handler on a present game (server.js lines 226-257):
a white or black seat matching the dropped socket id is kept but marked
`connected = false`; otherwise the socket id is filtered out of the
spectator list.  `player-disconnected` goes to the other room members, and a
cleanup check is scheduled `cleanupDelayMs` after the disconnect; the third
component is that check's fire time. -/
def disconnectGame (g : Game) (sid : String) (now : Nat) :
    Game × List Emission × Nat :=
  let g1 :=
    if playerIdMatches g.players.white sid then
      { g with players :=
          { g.players with
              white := g.players.white.map fun w => { w with connected := false } } }
    else if playerIdMatches g.players.black sid then
      { g with players :=
          { g.players with
              black := g.players.black.map fun b => { b with connected := false } } }
    else
      { g with spectators := g.spectators.filter fun s => s.id ≠ sid }
  (g1,
   [{ target := Target.others, event := "player-disconnected", msg := none }],
   now + cleanupDelayMs)

/-- The room registry `gameRooms`, a JavaScript `Map` modelled as an
insertion-ordered association list. -/
abbrev Registry := List (String × Game)

/-- `gameRooms.get(code)`: first entry stored under the key. -/
def mapGet : Registry → String → Option Game
  | [], _ => none
  | p :: rest, code => if p.1 = code then some p.2 else mapGet rest code

/-- `gameRooms.set(code, g)`: overwrites in place when the key is present,
appends otherwise. -/
def mapSet (reg : Registry) (code : String) (g : Game) : Registry :=
  if reg.any (fun p => p.1 = code) then
    reg.map fun p => if p.1 = code then (code, g) else p
  else
    reg ++ [(code, g)]

/-- `gameRooms.delete(code)`. -/
def mapDelete (reg : Registry) (code : String) : Registry :=
  reg.filter fun p => p.1 ≠ code

/-- The `create-room` handler (server.js lines 53-76): draws one room id from
`generateRoomId` (no collision check, no retry), builds a fresh game with the
creator seated as white, and registers it with `gameRooms.set`, overwriting
any session already stored under the same id. -/
def createRoomHandler (reg : Registry) (randStr playerName sid : String) (now : Nat) :
    Registry × String :=
  let roomId := generateRoomId randStr
  let game0 := createNewGame roomId now
  let game := { game0 with players :=
    { game0.players with white := some { id := sid, name := playerName, connected := true } } }
  (mapSet reg roomId game, roomId)

/-- The body of the `setTimeout` scheduled on disconnect
(server.js lines 247-255): when it fires, the room is deleted exactly when it
still exists, neither seat is connected, and the spectator list is empty. -/
def cleanupCheck (reg : Registry) (roomId : String) : Registry :=
  match mapGet reg roomId with
  | none => reg
  | some g =>
    if !optConnected g.players.white && !optConnected g.players.black
        && g.spectators.length == 0 then
      mapDelete reg roomId
    else
      reg

/-! ### Concrete instances used in the closed theorems -/

/-- A finished game: initial board, white to move, `gameOver` set. -/
def gFinished : Game :=
  { createNewGame "ROOMA1" 10 with gameOver := true, result := some "checkmate" }

/-- A knight development move declared by white. -/
def mdKnight : MoveData :=
  { type := MoveType.move, «from» := { row := 7, col := 1 },
    «to» := { row := 5, col := 2 }, piece := 'N' }

/-- A fresh game right after creation: initial board, white to move. -/
def gFresh : Game := createNewGame "ROOMB2" 0

/-- A structurally invalid move: square `(4,4)` is empty on the initial
board, so the source cell of this move is empty. -/
def mdEmptySource : MoveData :=
  { type := MoveType.move, «from» := { row := 4, col := 4 },
    «to» := { row := 4, col := 5 }, piece := 'N' }

/-- A game whose sole registered occupant is the white player `Alice`. -/
def gOld : Game :=
  { createNewGame "ABCDEF" 0 with
      players :=
        { white := some { id := "sock1", name := "Alice", connected := true },
          black := none } }

/-- A registry holding exactly the room `ABCDEF`. -/
def regOne : Registry := [("ABCDEF", gOld)]

/-- A game with two players and one spectator, all connected. -/
def gWithSpec : Game :=
  { createNewGame "ROOMC8" 0 with
      players :=
        { white := some { id := "w1", name := "Alice", connected := true },
          black := some { id := "b1", name := "Bob", connected := true } },
      spectators := [{ id := "s1", name := "Eve", connected := true }] }

/-! ### Counterexamples -/

/-- C1: the claim says that once `gameOver` is set every move/swap is
rejected with an error and no state change.  Counterexample: the `make-move`
handler never reads `gameOver`; on a finished game a move from the player
whose color matches `currentPlayer` is applied — `move-made` is broadcast
(no `error`), the turn flips, the history grows and the board changes. -/
theorem c1_counterexample :
    gFinished.gameOver = true ∧
    (makeMoveGame gFinished Role.white mdKnight 11).2 =
      [{ target := Target.room, event := "move-made", msg := none }] ∧
    (makeMoveGame gFinished Role.white mdKnight 11).1.currentPlayer = Color.black ∧
    (makeMoveGame gFinished Role.white mdKnight 11).1.moveHistory ≠ gFinished.moveHistory ∧
    (makeMoveGame gFinished Role.white mdKnight 11).1.board ≠ gFinished.board := by
  refine ⟨rfl, rfl, rfl, by decide, by decide⟩

/-- C2: the claim says a move with an empty source cell is silently ignored
with no state change.  Counterexample: on a fresh game, a move out of the
empty square `(4,4)` is applied — the board, the history and the turn all
change (and no error is emitted either). -/
theorem c2_counterexample :
    cellAt gFresh.board 4 4 = some none ∧
    (makeMoveGame gFresh Role.white mdEmptySource 7).2 =
      [{ target := Target.room, event := "move-made", msg := none }] ∧
    (makeMoveGame gFresh Role.white mdEmptySource 7).1.board ≠ gFresh.board ∧
    (makeMoveGame gFresh Role.white mdEmptySource 7).1.moveHistory ≠ gFresh.moveHistory ∧
    (makeMoveGame gFresh Role.white mdEmptySource 7).1.currentPlayer ≠ gFresh.currentPlayer := by
  refine ⟨rfl, rfl, by decide, by decide, by decide⟩

/-- C3: the claim says room creation retries until the generated code is
unique among registered rooms.  Counterexample: `generateRoomId` never
consults the registry and `create-room` registers unconditionally, so when
the random draw collides with the registered room `ABCDEF`, the existing
session is silently overwritten — the registry still has exactly one entry
and its white seat now belongs to the new creator. -/
theorem c3_counterexample :
    generateRoomId "0.abcdefxyz" = "ABCDEF" ∧
    mapGet regOne "ABCDEF" = some gOld ∧
    (createRoomHandler regOne "0.abcdefxyz" "Bob" "sock2" 99).2 = "ABCDEF" ∧
    (createRoomHandler regOne "0.abcdefxyz" "Bob" "sock2" 99).1.length = 1 ∧
    (mapGet (createRoomHandler regOne "0.abcdefxyz" "Bob" "sock2" 99).1 "ABCDEF").map
        (fun g => g.players.white) =
      some (some { id := "sock2", name := "Bob", connected := true }) := by
  refine ⟨rfl, rfl, rfl, rfl, rfl⟩

/-- C8: the claim says a disconnecting spectator's entry is retained with
`connected = false`.  Counterexample: the `disconnect` handler filters the
spectator out of the list entirely. -/
theorem c8_counterexample :
    (disconnectGame gWithSpec "s1" 500).1.spectators = [] ∧
    (disconnectGame gWithSpec "s1" 500).1.spectators ≠
      [{ id := "s1", name := "Eve", connected := false }] := by
  refine ⟨rfl, by decide⟩

/-! ### The accepted-move path of `make-move` (C1, C2) -/

/-- C1 (amended): the `make-move` handler never consults `gameOver`.  Even
with `gameOver` set, a move or swap with 0–7 coordinates submitted by the
player whose color matches the current turn is applied exactly as during an
active game: the board is rewritten, a history entry is appended, the turn
flips, and `move-made` is broadcast to the room with no error. -/
theorem c1_gameover_not_checked (g : Game) (playerColor : Role) (md : MoveData) (now : Nat)
    (hgo : g.gameOver = true)
    (hwf : boardWF g.board = true)
    (hfr : md.«from».row < 8) (hfc : md.«from».col < 8)
    (htr : md.«to».row < 8) (htc : md.«to».col < 8)
    (hns : playerColor ≠ Role.spectator)
    (ht : roleMatchesTurn g.currentPlayer playerColor = true) :
    makeMoveGame g playerColor md now =
      ({ g with
          board := applyBoard g.board md
          moveHistory := g.moveHistory ++
            [{ data := md, timestamp := now, player := playerColor }]
          currentPlayer := g.currentPlayer.other },
       [{ target := Target.room, event := "move-made", msg := none }]) := by
  simp [makeMoveGame, hns, ht]

/-- Witness for `c1_gameover_not_checked`: white moves a knight on a
finished game and the move is applied. -/
theorem c1_witness :
    makeMoveGame gFinished Role.white mdKnight 11 =
      ({ gFinished with
          board := applyBoard gFinished.board mdKnight
          moveHistory := gFinished.moveHistory ++
            [{ data := mdKnight, timestamp := 11, player := Role.white }]
          currentPlayer := gFinished.currentPlayer.other },
       [{ target := Target.room, event := "move-made", msg := none }]) :=
  c1_gameover_not_checked gFinished Role.white mdKnight 11 rfl (by decide)
    (by decide) (by decide) (by decide) (by decide) (by decide) rfl

/-- C2 (amended): the handler performs no structural validation at all.  For
every `moveData` with 0–7 coordinates — in particular one whose source cell
is empty, or a swap whose cells are empty or whose pieces do not belong to
the actor — the action submitted by the player whose color matches the turn
is applied rather than ignored: the board is rewritten, the history grows,
the turn flips, and no error is emitted.  This statement is restricted to
the 0–7 range, where `boardSet` coincides with the JavaScript array
assignment; out-of-range coordinates are not a silent no-op in the source
either, but their effect is JavaScript-specific (an out-of-range row index
throws at the array access, an out-of-range column writes outside the 8×8
grid) and is not modelled here. -/
theorem c2_no_structural_validation (g : Game) (playerColor : Role) (md : MoveData) (now : Nat)
    (hwf : boardWF g.board = true)
    (hfr : md.«from».row < 8) (hfc : md.«from».col < 8)
    (htr : md.«to».row < 8) (htc : md.«to».col < 8)
    (hns : playerColor ≠ Role.spectator)
    (ht : roleMatchesTurn g.currentPlayer playerColor = true) :
    (makeMoveGame g playerColor md now).2 =
      [{ target := Target.room, event := "move-made", msg := none }] ∧
    (makeMoveGame g playerColor md now).1.board = applyBoard g.board md ∧
    (makeMoveGame g playerColor md now).1.moveHistory =
      g.moveHistory ++ [{ data := md, timestamp := now, player := playerColor }] ∧
    (makeMoveGame g playerColor md now).1.currentPlayer = g.currentPlayer.other := by
  refine ⟨?_, ?_, ?_, ?_⟩ <;> simp [makeMoveGame, hns, ht]

/-- Witness for `c2_no_structural_validation`: the empty-source move
`mdEmptySource` is applied on a fresh game. -/
theorem c2_witness :
    (makeMoveGame gFresh Role.white mdEmptySource 7).2 =
      [{ target := Target.room, event := "move-made", msg := none }] ∧
    (makeMoveGame gFresh Role.white mdEmptySource 7).1.board =
      applyBoard gFresh.board mdEmptySource ∧
    (makeMoveGame gFresh Role.white mdEmptySource 7).1.moveHistory =
      gFresh.moveHistory ++
        [{ data := mdEmptySource, timestamp := 7, player := Role.white }] ∧
    (makeMoveGame gFresh Role.white mdEmptySource 7).1.currentPlayer =
      gFresh.currentPlayer.other :=
  c2_no_structural_validation gFresh Role.white mdEmptySource 7 (by decide)
    (by decide) (by decide) (by decide) (by decide) (by decide) rfl

/-! ### Turn-mismatch rejection (C5) -/

/-- C5: a move or swap attempted by a player whose color differs from the
session's current turn is a no-op on the session — no board change, no turn
flip, no history append — and the only emission is an `error` `"Not your
turn"` addressed to the requesting connection alone, never to the room. -/
theorem c5_turn_mismatch_noop (g : Game) (playerColor : Role) (md : MoveData) (now : Nat)
    (hns : playerColor ≠ Role.spectator)
    (hmm : roleMatchesTurn g.currentPlayer playerColor = false) :
    makeMoveGame g playerColor md now = (g, [notYourTurn]) ∧
    notYourTurn.target = Target.requester ∧
    notYourTurn.msg = some "Not your turn" := by
  refine ⟨?_, rfl, rfl⟩
  simp [makeMoveGame, hns, hmm]

/-- Witness for `c5_turn_mismatch_noop`: black tries to move while it is
white's turn on a fresh game. -/
theorem c5_witness :
    makeMoveGame gFresh Role.black mdKnight 3 = (gFresh, [notYourTurn]) ∧
    notYourTurn.target = Target.requester ∧
    notYourTurn.msg = some "Not your turn" :=
  c5_turn_mismatch_noop gFresh Role.black mdKnight 3 (by decide) (by decide)

/-! ### Disconnect handling (C8) -/

/-- C8 (amended): when a connection drops, a player seat whose id matches is
retained with `connected = false` and the other seat and the spectator list
are untouched (shown for the white seat on `g1` and the black seat on `g2`),
while a dropped id that matches neither seat is filtered out of the
spectator list entirely — a spectator's entry is removed, not retained
(shown on `g3`); in every case the other room members are notified by a
`player-disconnected` event addressed to the rest of the room. -/
theorem c8_disconnect_behaviour
    (g1 g2 g3 : Game) (sid1 sid2 sid3 : String) (now1 now2 now3 : Nat)
    (w b : PlayerInfo)
    (hw1 : g1.players.white = some w) (hid1 : w.id = sid1)
    (hw2 : playerIdMatches g2.players.white sid2 = false)
    (hb2 : g2.players.black = some b) (hid2 : b.id = sid2)
    (hw3 : playerIdMatches g3.players.white sid3 = false)
    (hb3 : playerIdMatches g3.players.black sid3 = false) :
    (disconnectGame g1 sid1 now1).1.players.white = some { w with connected := false } ∧
    (disconnectGame g1 sid1 now1).1.players.black = g1.players.black ∧
    (disconnectGame g1 sid1 now1).1.spectators = g1.spectators ∧
    (disconnectGame g2 sid2 now2).1.players.black = some { b with connected := false } ∧
    (disconnectGame g2 sid2 now2).1.players.white = g2.players.white ∧
    (disconnectGame g2 sid2 now2).1.spectators = g2.spectators ∧
    (disconnectGame g3 sid3 now3).1.spectators =
      g3.spectators.filter (fun s => s.id ≠ sid3) ∧
    (disconnectGame g3 sid3 now3).1.players = g3.players ∧
    (disconnectGame g1 sid1 now1).2.1 =
      [{ target := Target.others, event := "player-disconnected", msg := none }] := by
  have h1 : playerIdMatches g1.players.white sid1 = true := by
    simp [playerIdMatches, hw1, hid1]
  have h2 : playerIdMatches g2.players.black sid2 = true := by
    simp [playerIdMatches, hb2, hid2]
  refine ⟨?_, ?_, ?_, ?_, ?_, ?_, ?_, ?_, ?_⟩ <;>
    · simp only [disconnectGame, h1, h2, hw2, hw3, hb3]
      try simp [hw1, hb2]

/-- Witness for `c8_disconnect_behaviour`: in `gWithSpec`, dropping `w1`
marks the white seat disconnected, dropping `b1` marks the black seat
disconnected, and dropping the spectator `s1` removes the spectator entry. -/
theorem c8_witness :
    (disconnectGame gWithSpec "w1" 1).1.players.white =
      some { id := "w1", name := "Alice", connected := false } ∧
    (disconnectGame gWithSpec "w1" 1).1.players.black = gWithSpec.players.black ∧
    (disconnectGame gWithSpec "w1" 1).1.spectators = gWithSpec.spectators ∧
    (disconnectGame gWithSpec "b1" 2).1.players.black =
      some { id := "b1", name := "Bob", connected := false } ∧
    (disconnectGame gWithSpec "b1" 2).1.players.white = gWithSpec.players.white ∧
    (disconnectGame gWithSpec "b1" 2).1.spectators = gWithSpec.spectators ∧
    (disconnectGame gWithSpec "s1" 3).1.spectators =
      gWithSpec.spectators.filter (fun s => s.id ≠ "s1") ∧
    (disconnectGame gWithSpec "s1" 3).1.players = gWithSpec.players ∧
    (disconnectGame gWithSpec "w1" 1).2.1 =
      [{ target := Target.others, event := "player-disconnected", msg := none }] :=
  c8_disconnect_behaviour gWithSpec gWithSpec gWithSpec "w1" "b1" "s1" 1 2 3
    { id := "w1", name := "Alice", connected := true }
    { id := "b1", name := "Bob", connected := true }
    rfl rfl (by decide) rfl rfl (by decide) (by decide)

/-! ### Rematch reset (C7, C10) -/

/-- C7: the `accept-rematch` reset restores the initial board, sets the turn
to white, clears `gameOver`, `result` and the move history, and leaves the
player seats and the spectator list unchanged. -/
theorem c7_rematch_reset_frame (g : Game) (role : Role) :
    (acceptRematchGame g role).1.board = initialBoard ∧
    (acceptRematchGame g role).1.currentPlayer = Color.white ∧
    (acceptRematchGame g role).1.gameOver = false ∧
    (acceptRematchGame g role).1.result = none ∧
    (acceptRematchGame g role).1.moveHistory = [] ∧
    (acceptRematchGame g role).1.players = g.players ∧
    (acceptRematchGame g role).1.spectators = g.spectators :=
  ⟨rfl, rfl, rfl, rfl, rfl, rfl, rfl⟩

/-- C10: `accept-rematch` resets the session unconditionally — the result is
the same for every sender role (spectators included) and for every prior
state (in particular whether or not `gameOver` was set, and with no
precondition that a rematch was requested), whereas `request-rematch` from a
spectator is silently dropped without touching the session. -/
theorem c10_accept_rematch_unconditional (g : Game) (r1 r2 : Role) :
    acceptRematchGame g r1 = acceptRematchGame g r2 ∧
    (acceptRematchGame g r1).1.board = initialBoard ∧
    (acceptRematchGame g r1).1.currentPlayer = Color.white ∧
    (acceptRematchGame g r1).1.gameOver = false ∧
    (acceptRematchGame g r1).1.result = none ∧
    (acceptRematchGame g r1).1.moveHistory = [] ∧
    (acceptRematchGame g r1).2 =
      [{ target := Target.room, event := "game-reset", msg := none }] ∧
    requestRematchGame g Role.spectator = (g, []) := by
  refine ⟨rfl, rfl, rfl, rfl, rfl, rfl, rfl, ?_⟩
  simp [requestRematchGame]

/-! ### Turn alternation (C4) -/

/-- Flipping the turn twice returns to the original color. -/
theorem Color.other_other (c : Color) : c.other.other = c := by
  cases c <;> rfl

/-- One inbound `make-move` event: the acting connection's role, the payload
and the `Date.now()` reading. -/
abbrev Act := Role × MoveData × Nat

/-- The session after one `make-move` event. -/
def stepGame (g : Game) (a : Act) : Game :=
  (makeMoveGame g a.1 a.2.1 a.2.2).1

/-- Run a sequence of `make-move` events, counting how many of them were
accepted (the actor's role string equals the current turn, which is exactly
the successful path of the handler — spectators never match). -/
def runCount : Game → List Act → Game × Nat
  | g, [] => (g, 0)
  | g, a :: rest =>
    let r := runCount (stepGame g a) rest
    (r.1, (if roleMatchesTurn g.currentPlayer a.1 then 1 else 0) + r.2)

/-- An accepted `make-move` event flips the turn. -/
theorem stepGame_accepted (g : Game) (a : Act)
    (h : roleMatchesTurn g.currentPlayer a.1 = true) :
    (stepGame g a).currentPlayer = g.currentPlayer.other := by
  have hns : a.1 ≠ Role.spectator := by
    intro he
    rw [he] at h
    cases g.currentPlayer <;> simp [roleMatchesTurn] at h
  simp [stepGame, makeMoveGame, hns, h]

/-- A rejected `make-move` event leaves the session unchanged. -/
theorem stepGame_rejected (g : Game) (a : Act)
    (h : roleMatchesTurn g.currentPlayer a.1 = false) :
    stepGame g a = g := by
  by_cases hs : a.1 = Role.spectator
  · simp [stepGame, makeMoveGame, hs]
  · simp [stepGame, makeMoveGame, hs, h]

/-- The turn after a run of events is determined by the parity of the number
of accepted actions. -/
theorem runCount_turn (acts : List Act) : ∀ g : Game,
    (runCount g acts).1.currentPlayer =
      if (runCount g acts).2 % 2 = 0 then g.currentPlayer
      else g.currentPlayer.other := by
  induction acts with
  | nil => intro g; simp [runCount]
  | cons a rest ih =>
    intro g
    by_cases h : roleMatchesTurn g.currentPlayer a.1 = true
    · have h1 := ih (stepGame g a)
      rw [stepGame_accepted g a h] at h1
      simp only [runCount, h, if_true]
      rw [h1]
      rcases Nat.mod_two_eq_zero_or_one ((runCount (stepGame g a) rest).2) with hm | hm
      · have h2 : (1 + (runCount (stepGame g a) rest).2) % 2 = 1 := by omega
        simp [hm, h2]
      · have h2 : (1 + (runCount (stepGame g a) rest).2) % 2 = 0 := by omega
        simp [hm, h2, Color.other_other]
    · have hf : roleMatchesTurn g.currentPlayer a.1 = false := by
        revert h; cases roleMatchesTurn g.currentPlayer a.1 <;> simp
      simp only [runCount, hf]
      rw [stepGame_rejected g a hf]
      simpa using ih g

/-- C4: at creation the turn is white, and after any sequence of `make-move`
events the turn is white exactly when the number of accepted move/swap
actions so far is even — i.e. the turn strictly alternates starting from
white, flipping on every accepted action and only on those. -/
theorem c4_turn_alternation (roomId : String) (now : Nat) (acts : List Act) :
    (createNewGame roomId now).currentPlayer = Color.white ∧
    (runCount (createNewGame roomId now) acts).1.currentPlayer =
      (if (runCount (createNewGame roomId now) acts).2 % 2 = 0 then Color.white
       else Color.black) := by
  refine ⟨rfl, ?_⟩
  simpa [createNewGame, Color.other] using runCount_turn acts (createNewGame roomId now)

/-! ### Board lemmas and pawn promotion (C6) -/

/-- Writing inside the bounds of a list and reading the same index back. -/
theorem get?_set_same {α : Type} :
    ∀ (l : List α) (i : Nat) (a : α), i < l.length → (l.set i a).get? i = some a
  | [], i, a, h => absurd h (Nat.not_lt_zero i)
  | _ :: _, 0, _, _ => rfl
  | _ :: xs, i + 1, a, h => get?_set_same xs i a (Nat.lt_of_succ_lt_succ h)

/-- `boardSet` never changes the shape of the board: every row keeps its
length. -/
theorem boardSet_get?_shape (b : Board) (r c : Nat) (v : Cell) (i : Nat) :
    ((boardSet b r c v).get? i).map List.length = (b.get? i).map List.length := by
  unfold boardSet
  by_cases hir : r = i
  · subst hir
    rw [List.get?_set_eq]
    cases hb : b.get? r
    · simp
    · simp [hb]
  · rw [List.get?_set_ne _ _ hir]

/-- On an 8×8 board every row index below 8 holds a row of length 8. -/
theorem boardWF_get? (b : Board) (h : boardWF b = true) (r : Nat) (hr : r < 8) :
    ∃ row, b.get? r = some row ∧ row.length = 8 := by
  unfold boardWF at h
  rw [Bool.and_eq_true] at h
  obtain ⟨hlen, hall⟩ := h
  have hlen8 : b.length = 8 := by simpa using hlen
  cases hrow : b.get? r with
  | none =>
    rw [List.get?_eq_none] at hrow
    omega
  | some row =>
    refine ⟨row, rfl, ?_⟩
    have hmem : row ∈ b := List.get?_mem hrow
    have := List.all_eq_true.mp hall row hmem
    simpa using this

/-- Reading back a freshly written cell, given the row exists and the column
is inside it. -/
theorem cellAt_boardSet_self (b : Board) (r c : Nat) (v : Cell) (row : List Cell)
    (hrow : b.get? r = some row) (hc : c < row.length) :
    cellAt (boardSet b r c v) r c = some v := by
  unfold cellAt boardSet
  rw [List.get?_set_eq, hrow]
  simpa using get?_set_same row c v hc

/-- The `move` branch of the board update when the declared piece is the
white pawn `'P'` landing on row 0: the promotion overwrite fires with `'Q'`. -/
theorem applyBoard_move_promoteW (b : Board) (md : MoveData)
    (hty : md.type = MoveType.move) (hp : md.piece = 'P') (hr : md.«to».row = 0) :
    applyBoard b md =
      boardSet (boardSet (boardSet b md.«to».row md.«to».col (some 'P'))
          md.«from».row md.«from».col none) md.«to».row md.«to».col (some 'Q') := by
  simp [applyBoard, hty, hp, hr]

/-- The `move` branch when the declared piece is the black pawn `'p'`
landing on row 7: the promotion overwrite fires with `'q'`. -/
theorem applyBoard_move_promoteB (b : Board) (md : MoveData)
    (hty : md.type = MoveType.move) (hp : md.piece = 'p') (hr : md.«to».row = 7) :
    applyBoard b md =
      boardSet (boardSet (boardSet b md.«to».row md.«to».col (some 'p'))
          md.«from».row md.«from».col none) md.«to».row md.«to».col (some 'q') := by
  simp [applyBoard, hty, hp, hr]

/-- The `move` branch for any declared piece whose lowercase form is not a
pawn: the piece is placed verbatim, with no promotion overwrite. -/
theorem applyBoard_move_nonpawn (b : Board) (md : MoveData)
    (hty : md.type = MoveType.move) (hp : md.piece.toLower ≠ 'p') :
    applyBoard b md =
      boardSet (boardSet b md.«to».row md.«to».col (some md.piece))
        md.«from».row md.«from».col none := by
  simp [applyBoard, hty, hp]

/-- On an accepted move the board of the next state is the applied board. -/
theorem makeMoveGame_board (g : Game) (playerColor : Role) (md : MoveData) (now : Nat)
    (hns : playerColor ≠ Role.spectator)
    (ht : roleMatchesTurn g.currentPlayer playerColor = true) :
    (makeMoveGame g playerColor md now).1.board = applyBoard g.board md := by
  simp [makeMoveGame, hns, ht]

/-- After two writes the shape of a row is still that of the original board. -/
theorem boardSet_twice_row (b : Board) (r1 c1 : Nat) (v1 : Cell) (r2 c2 : Nat) (v2 : Cell)
    (i : Nat) (row : List Cell) (hrow : b.get? i = some row) :
    ∃ row2, (boardSet (boardSet b r1 c1 v1) r2 c2 v2).get? i = some row2 ∧
      row2.length = row.length := by
  have h1 := boardSet_get?_shape b r1 c1 v1 i
  have h2 := boardSet_get?_shape (boardSet b r1 c1 v1) r2 c2 v2 i
  rw [h1, hrow] at h2
  cases hrow2 : (boardSet (boardSet b r1 c1 v1) r2 c2 v2).get? i with
  | none => rw [hrow2] at h2; simp at h2
  | some row2 =>
    rw [hrow2] at h2
    exact ⟨row2, rfl, by simpa using h2⟩

/-- C6: on every accepted move (0–7 coordinates), a declared white pawn
landing on row 0 ends as the white queen `'Q'` at the destination, a
declared black pawn landing on row 7 ends as the black queen `'q'` at the
destination, and for any declared piece that is not a pawn the board update
places the declared piece verbatim — no other piece type is ever altered by
a move. -/
theorem c6_pawn_promotion
    (gW gB gN : Game) (rW rB rN : Role) (mdW mdB mdN : MoveData) (nowW nowB nowN : Nat)
    (hWwf : boardWF gW.board = true)
    (hWns : rW ≠ Role.spectator) (hWt : roleMatchesTurn gW.currentPlayer rW = true)
    (hWty : mdW.type = MoveType.move) (hWp : mdW.piece = 'P')
    (hWr : mdW.«to».row = 0) (hWc : mdW.«to».col < 8)
    (hBwf : boardWF gB.board = true)
    (hBns : rB ≠ Role.spectator) (hBt : roleMatchesTurn gB.currentPlayer rB = true)
    (hBty : mdB.type = MoveType.move) (hBp : mdB.piece = 'p')
    (hBr : mdB.«to».row = 7) (hBc : mdB.«to».col < 8)
    (hNns : rN ≠ Role.spectator) (hNt : roleMatchesTurn gN.currentPlayer rN = true)
    (hNty : mdN.type = MoveType.move) (hNp : mdN.piece.toLower ≠ 'p') :
    cellAt (makeMoveGame gW rW mdW nowW).1.board mdW.«to».row mdW.«to».col =
      some (some 'Q') ∧
    cellAt (makeMoveGame gB rB mdB nowB).1.board mdB.«to».row mdB.«to».col =
      some (some 'q') ∧
    (makeMoveGame gN rN mdN nowN).1.board =
      boardSet (boardSet gN.board mdN.«to».row mdN.«to».col (some mdN.piece))
        mdN.«from».row mdN.«from».col none := by
  refine ⟨?_, ?_, ?_⟩
  · rw [makeMoveGame_board gW rW mdW nowW hWns hWt,
      applyBoard_move_promoteW gW.board mdW hWty hWp hWr]
    obtain ⟨row0, hrow0, hlen0⟩ := boardWF_get? gW.board hWwf mdW.«to».row (by omega)
    obtain ⟨row2, hrow2, hlen2⟩ := boardSet_twice_row gW.board
      mdW.«to».row mdW.«to».col (some 'P') mdW.«from».row mdW.«from».col none
      mdW.«to».row row0 hrow0
    exact cellAt_boardSet_self _ mdW.«to».row mdW.«to».col (some 'Q') row2 hrow2
      (by omega)
  · rw [makeMoveGame_board gB rB mdB nowB hBns hBt,
      applyBoard_move_promoteB gB.board mdB hBty hBp hBr]
    obtain ⟨row0, hrow0, hlen0⟩ := boardWF_get? gB.board hBwf mdB.«to».row (by omega)
    obtain ⟨row2, hrow2, hlen2⟩ := boardSet_twice_row gB.board
      mdB.«to».row mdB.«to».col (some 'p') mdB.«from».row mdB.«from».col none
      mdB.«to».row row0 hrow0
    exact cellAt_boardSet_self _ mdB.«to».row mdB.«to».col (some 'q') row2 hrow2
      (by omega)
  · rw [makeMoveGame_board gN rN mdN nowN hNns hNt,
      applyBoard_move_nonpawn gN.board mdN hNty hNp]

/-- A white pawn move onto the back rank at `(0,0)`. -/
def mdPawnW : MoveData :=
  { type := MoveType.move, «from» := { row := 1, col := 0 },
    «to» := { row := 0, col := 0 }, piece := 'P' }

/-- A black pawn move onto the back rank at `(7,7)`. -/
def mdPawnB : MoveData :=
  { type := MoveType.move, «from» := { row := 6, col := 7 },
    «to» := { row := 7, col := 7 }, piece := 'p' }

/-- A fresh game with the turn handed to black. -/
def gBlackTurn : Game := { createNewGame "ROOMB7" 0 with currentPlayer := Color.black }

/-- Witness for `c6_pawn_promotion`: concrete white and black pawn moves
onto the back ranks, and a knight move left verbatim. -/
theorem c6_witness :
    cellAt (makeMoveGame gFresh Role.white mdPawnW 1).1.board mdPawnW.«to».row
      mdPawnW.«to».col = some (some 'Q') ∧
    cellAt (makeMoveGame gBlackTurn Role.black mdPawnB 2).1.board mdPawnB.«to».row
      mdPawnB.«to».col = some (some 'q') ∧
    (makeMoveGame gFresh Role.white mdKnight 3).1.board =
      boardSet (boardSet gFresh.board mdKnight.«to».row mdKnight.«to».col (some 'N'))
        mdKnight.«from».row mdKnight.«from».col none :=
  c6_pawn_promotion gFresh gBlackTurn gFresh Role.white Role.black Role.white
    mdPawnW mdPawnB mdKnight 1 2 3 (by decide) (by decide) (by decide) (by decide)
    (by decide) (by decide) (by decide) (by decide) (by decide) (by decide)
    (by decide) (by decide) (by decide) (by decide) (by decide) (by decide)
    (by decide) (by decide)

/-! ### Registry lemmas (C3, C9) -/

/-- Overwriting an existing key leaves the key sequence unchanged. -/
theorem mapSet_overwrite_keys (reg : Registry) (code : String) (g : Game) :
    (reg.map fun p => if p.1 = code then (code, g) else p).map Prod.fst =
      reg.map Prod.fst := by
  induction reg with
  | nil => rfl
  | cons hd tl ih =>
    by_cases hh : hd.1 = code
    · simp [hh, ih]
    · simp [hh, ih]

/-- A successful lookup means the key occurs in the registry. -/
theorem mapGet_some_any (reg : Registry) (code : String) (g0 : Game)
    (h : mapGet reg code = some g0) : reg.any (fun p => p.1 = code) = true := by
  induction reg with
  | nil => simp [mapGet] at h
  | cons hd tl ih =>
    by_cases hh : hd.1 = code
    · simp [hh]
    · rw [mapGet, if_neg hh] at h
      simp [hh, ih h]

/-- Looking up the key just overwritten finds the new value. -/
theorem mapGet_overwrite (reg : Registry) (code : String) (g : Game)
    (h : reg.any (fun p => p.1 = code) = true) :
    mapGet (reg.map fun p => if p.1 = code then (code, g) else p) code = some g := by
  induction reg with
  | nil => simp at h
  | cons hd tl ih =>
    by_cases hh : hd.1 = code
    · simp [mapGet, hh]
    · have h2 : tl.any (fun p => p.1 = code) = true := by
        rcases List.any_eq_true.mp h with ⟨p, hp, hpe⟩
        rcases List.mem_cons.mp hp with he | ht
        · rw [he] at hpe
          exact absurd (of_decide_eq_true hpe) hh
        · exact List.any_eq_true.mpr ⟨p, ht, hpe⟩
      simpa [mapGet, hh] using ih h2

/-- Lookup skips over a prefix that does not hold the key. -/
theorem mapGet_append_absent (reg : Registry) (code : String) (l : Registry)
    (h : reg.any (fun p => p.1 = code) = false) :
    mapGet (reg ++ l) code = mapGet l code := by
  induction reg with
  | nil => rfl
  | cons hd tl ih =>
    rw [List.any_cons, Bool.or_eq_false_iff] at h
    obtain ⟨h1, h2⟩ := h
    have hh : hd.1 ≠ code := by simpa using h1
    simpa [mapGet, hh] using ih h2

/-- `gameRooms.set` followed by `gameRooms.get` at the same key finds the
stored game. -/
theorem mapGet_mapSet_self (reg : Registry) (code : String) (g : Game) :
    mapGet (mapSet reg code g) code = some g := by
  unfold mapSet
  cases hc : reg.any (fun p => p.1 = code) with
  | true =>
    simpa [hc] using mapGet_overwrite reg code g hc
  | false =>
    simp only [hc, Bool.false_eq_true, if_false]
    rw [mapGet_append_absent reg code _ hc]
    simp [mapGet]

/-- `gameRooms.set` preserves distinctness of the registered codes. -/
theorem mapSet_keys_nodup (reg : Registry) (code : String) (g : Game)
    (h : (reg.map Prod.fst).Nodup) :
    ((mapSet reg code g).map Prod.fst).Nodup := by
  unfold mapSet
  cases hc : reg.any (fun p => p.1 = code) with
  | true =>
    rw [if_pos rfl, mapSet_overwrite_keys]
    exact h
  | false =>
    have hnot : code ∉ reg.map Prod.fst := by
      intro hmem
      rcases List.mem_map.mp hmem with ⟨p, hp, hpe⟩
      have : reg.any (fun p => p.1 = code) = true :=
        List.any_eq_true.mpr ⟨p, hp, by simp [hpe]⟩
      rw [hc] at this
      exact Bool.false_ne_true this
    simp only [hc, Bool.false_eq_true, if_false, List.map_append]
    rw [List.nodup_append]
    refine ⟨h, List.nodup_singleton code, ?_⟩
    intro a ha hb
    rw [List.map_cons, List.map_nil, List.mem_singleton] at hb
    subst hb
    exact hnot ha

/-- Overwriting an existing key does not grow the registry. -/
theorem mapSet_length_of_present (reg : Registry) (code : String) (g : Game)
    (h : reg.any (fun p => p.1 = code) = true) :
    (mapSet reg code g).length = reg.length := by
  unfold mapSet
  simp [h]

/-- After `gameRooms.delete` the key is gone. -/
theorem mapGet_mapDelete_self (reg : Registry) (code : String) :
    mapGet (mapDelete reg code) code = none := by
  induction reg with
  | nil => rfl
  | cons hd tl ih =>
    by_cases hh : hd.1 = code
    · simpa [mapDelete, List.filter_cons, hh] using ih
    · simpa [mapDelete, List.filter_cons, hh, mapGet] using ih

/-- C3 (amended): at any instant no two registered rooms share a code —
`gameRooms` is a map and `create-room` preserves distinctness of the key
sequence — but creation performs no collision retry: `generateRoomId` never
reads the registry, and when the generated code is already registered,
`create-room` keeps the registry size unchanged and overwrites the stored
session with the fresh creator session, losing the old one. -/
theorem c3_room_codes (reg regC : Registry)
    (randStr randStrC playerName playerNameC sid sidC : String)
    (now nowC : Nat) (g0 : Game)
    (hnd : (reg.map Prod.fst).Nodup)
    (hcol : mapGet regC (generateRoomId randStrC) = some g0) :
    (((createRoomHandler reg randStr playerName sid now).1).map Prod.fst).Nodup ∧
    (createRoomHandler regC randStrC playerNameC sidC nowC).1.length = regC.length ∧
    mapGet (createRoomHandler regC randStrC playerNameC sidC nowC).1
        (generateRoomId randStrC) =
      some { createNewGame (generateRoomId randStrC) nowC with
              players :=
                { white := some { id := sidC, name := playerNameC, connected := true },
                  black := none } } := by
  refine ⟨?_, ?_, ?_⟩
  · exact mapSet_keys_nodup reg _ _ hnd
  · exact mapSet_length_of_present regC _ _ (mapGet_some_any regC _ g0 hcol)
  · exact mapGet_mapSet_self regC _ _

/-- Witness for `c3_room_codes`: creating over the one-room registry
`regOne` with a colliding random draw. -/
theorem c3_witness :
    (((createRoomHandler regOne "0.zzzzzz" "Carol" "sock3" 5).1).map Prod.fst).Nodup ∧
    (createRoomHandler regOne "0.abcdefxyz" "Bob" "sock2" 99).1.length = regOne.length ∧
    mapGet (createRoomHandler regOne "0.abcdefxyz" "Bob" "sock2" 99).1
        (generateRoomId "0.abcdefxyz") =
      some { createNewGame (generateRoomId "0.abcdefxyz") 99 with
              players :=
                { white := some { id := "sock2", name := "Bob", connected := true },
                  black := none } } :=
  c3_room_codes regOne regOne "0.zzzzzz" "0.abcdefxyz" "Carol" "Bob" "sock3" "sock2"
    5 99 gOld (by decide) rfl

/-- C9: the disconnect handler schedules its cleanup check to fire exactly
`cleanupDelayMs` — five minutes, in milliseconds — after the disconnect, and
when the check fires on a registry in which the room still exists with
neither seat connected and no spectators left, the room is deleted. -/
theorem c9_empty_room_reclaimed (reg : Registry) (roomId : String) (g g0 : Game)
    (sid : String) (now : Nat)
    (hget : mapGet reg roomId = some g)
    (hw : optConnected g.players.white = false)
    (hb : optConnected g.players.black = false)
    (hs : g.spectators = []) :
    mapGet (cleanupCheck reg roomId) roomId = none ∧
    (disconnectGame g0 sid now).2.2 = now + cleanupDelayMs ∧
    cleanupDelayMs = 5 * 60 * 1000 := by
  refine ⟨?_, rfl, rfl⟩
  unfold cleanupCheck
  rw [hget]
  simp [hw, hb, hs, mapGet_mapDelete_self]

/-- A room whose only occupant ever seated is a disconnected white player. -/
def gDead : Game :=
  { createNewGame "DEADRM" 0 with
      players :=
        { white := some { id := "w9", name := "Ann", connected := false },
          black := none } }

/-- A registry holding exactly the dead room. -/
def regDead : Registry := [("DEADRM", gDead)]

/-- Witness for `c9_empty_room_reclaimed`: the dead room is removed by the
check, which fires five minutes after the disconnect at time 777. -/
theorem c9_witness :
    mapGet (cleanupCheck regDead "DEADRM") "DEADRM" = none ∧
    (disconnectGame gDead "w9" 777).2.2 = 777 + cleanupDelayMs ∧
    cleanupDelayMs = 5 * 60 * 1000 :=
  c9_empty_room_reclaimed regDead "DEADRM" gDead gDead "w9" 777 rfl rfl rfl rfl

end KangarooChess
